import Mathlib

/-!
Verification of the otsdb-client specification against `otsdb_client/client.py`.

Shallow embedding of the OpenTSDB HTTP client (`Connection` class).  Python
dicts are modelled as association lists, Python exceptions as an explicit
`PyError` value returned through `Except`, mutable connection state
(`self.ids`) as explicit state passing, JSON numbers as rationals (only
carried around, never computed with), and the HTTP transport as external
inputs (status codes and decoded bodies supplied as parameters).
-/

/-- A Python subscript key: the client indexes dicts with strings and, in one
buggy spot, with the integer `-1`. -/
inductive PyKey
  | str (s : String)
  | int (i : Int)
  deriving DecidableEq

/-- The Python exceptions the embedded code can raise. -/
inductive PyError
  | assertionError (msg : String)
  | keyError (k : PyKey)
  | typeError (msg : String)
  | valueError (msg : String)
  | indexError (msg : String)
  deriving DecidableEq

/-- A Python value that is either a string or a list of strings: enough to
model the comparison `['id', 'name'] in m.keys()` (a list compared against
string dict keys), whose Python `==` is `False` between the two shapes. -/
inductive PyV
  | str (s : String)
  | strList (l : List String)
  deriving DecidableEq

/-- A decoded JSON value (`json.loads` output).  Numbers are rationals. -/
inductive Json
  | null
  | bool (b : Bool)
  | num (q : ℚ)
  | str (s : String)
  | arr (elems : List Json)
  | obj (fields : List (String × Json))

/-- Python truthiness of a decoded JSON value (`if data`): `None`, `False`,
`0`, `""`, `[]` and `{}` are falsy. -/
def Json.truthy : Json → Bool
  | .null => false
  | .bool b => b
  | .num q => decide (q ≠ 0)
  | .str s => !s.isEmpty
  | .arr elems => !elems.isEmpty
  | .obj fields => !fields.isEmpty

/-- Result of `Connection.process_response`: Python `False` (non-success
status), Python `None` (falsy decoded data), or the decoded data itself. -/
inductive ProcResult
  | failure
  | noData
  | data (j : Json)

/-- Model of `Connection.process_response` (client.py lines 81-89).  Takes the HTTP
status code and the result of `json.loads(response.text)` (`none` when the
body is unparseable, e.g. the empty string, in which case `loads` raises
`ValueError`).  Statuses outside the half-open range `[200, 300)` return
`False` before any parsing. -/
def process_response (status : Nat) (body : Option Json) : Except PyError ProcResult :=
  if ¬ (200 ≤ status ∧ status < 300) then
    .ok .failure
  else
    match body with
    | none => .error (.valueError "No JSON object could be decoded")
    | some j => .ok (if j.truthy then .data j else .noData)

/-- The endpoint dict literal of `Connection.get_endpoint`
(client.py lines 51-60). -/
def endpointTable : List (String × String) :=
  [("filters", "/config/filters"),
   ("query_exp", "/query/exp"),
   ("aggr", "/aggregators"),
   ("suggest", "/suggest"),
   ("version", "/version"),
   ("put", "/put?details"),
   ("query", "/query"),
   ("stats", "/stats")]

/-- Model of `Connection.get_endpoint` (client.py lines 50-64).  `dict.get` returns
`None` for an unknown key, so `'/api' + None` raises `TypeError` before the
(dead) `assert endpoint is not '/api'` is ever reached; a known key returns
`'/api'` concatenated with their table entry. -/
def get_endpoint (key : String) : Except PyError String :=
  match endpointTable.lookup key with
  | some path => .ok ("/api" ++ path)
  | none => .error (.typeError "cannot concatenate str and NoneType objects")

/-- The `self.ids` dict created by `Connection.__init__`
(client.py lines 46-48), modelled as an association list. -/
def idsInit : List (String × Nat) :=
  [("filter", 0), ("metric", 0), ("expression", 0)]

/-- In-place value replacement for an existing key of the `self.ids` dict
(`self.ids[tid] += 1`, after the membership assert). -/
def dictSet (st : List (String × Nat)) (k : String) (n : Nat) : List (String × Nat) :=
  st.map (fun p => if p.1 = k then (k, n) else p)

/-- Model of `Connection.generate_id` (client.py lines 327-331): assert the kind is a
key of `self.ids`, increment that counter, and return the kind's first
character (`tid[:1]`) followed by the new counter value.  The mutated state is
returned alongside the result (unchanged when the assert fires). -/
def generate_id (tid : String) (st : List (String × Nat)) :
    Except PyError String × List (String × Nat) :=
  match st.lookup tid with
  | none => (.error (.assertionError "Field <tip> is not valid."), st)
  | some n => (.ok (tid.take 1 ++ toString (n + 1)), dictSet st tid (n + 1))

/-- A sequence of `generate_id` calls threaded through the connection state;
returns each call's result in order, plus the final state. -/
def runGen : List String → List (String × Nat) →
    List (Except PyError String) × List (String × Nat)
  | [], st => ([], st)
  | t :: ts, st =>
    let (r, st') := generate_id t st
    let (rs, st'') := runGen ts st'
    (r :: rs, st'')

/-- One tag object built by `Connection.generate_filter`
(client.py lines 339-346). -/
structure FilterTag where
  type : String
  tagk : String
  filter : String
  groupBy : Bool
  deriving DecidableEq

/-- The filter object returned by `Connection.generate_filter`. -/
structure FilterObj where
  id : String
  tags : List FilterTag
  deriving DecidableEq

/-- Model of `Connection.generate_filter` (client.py lines 333-348): assert the tag
list is non-empty, draw a fresh filter id, and wildcard every tag key. -/
def generate_filter (tags : List String) (group : Bool) (st : List (String × Nat)) :
    Except PyError FilterObj × List (String × Nat) :=
  if tags.length > 0 then
    match generate_id "filter" st with
    | (.ok fid, st') =>
      (.ok ⟨fid, tags.map (fun t => ⟨"wildcard", t, "*", group⟩)⟩, st')
    | (.error e, st') => (.error e, st')
  else
    (.error (.assertionError "Field <tags> is not valid."), st)

/-- One time-series point as assembled by `Connection.put`
(client.py line 188): `{'timestamp': nts, 'metric': metric, 'value': v,
'tags': tags}`.  Values are the `float(v)` conversions, modelled exactly as
rationals. -/
structure Point where
  timestamp : Int
  metric : String
  value : ℚ
  tags : List (String × String)
  deriving DecidableEq

/-- The `for n, v in enumerate(values)` point construction of
`Connection.put` (client.py lines 174-188): when no timestamps were supplied
every point gets the current wall-clock time `now`; otherwise the point takes
`timestamps[n]` (datetime inputs are already normalised to epoch integers in
the model, as `time.mktime` is external). -/
def buildPoints (metric : String) (timestamps : List Int) (tags : List (String × String))
    (now : Int) : Nat → List ℚ → List Point
  | _, [] => []
  | n, v :: rest =>
    ⟨if timestamps.isEmpty then now else timestamps.getD n 0, metric, v, tags⟩ ::
      buildPoints metric timestamps tags now (n + 1) rest

/-- The chunking loop of `Connection.put` (client.py lines 170-201): `ptl`
accumulates points, `ptc` counts them, and a request is appended every time
`ptc` reaches `ptcl`; a final non-empty remainder becomes one last request.
Each returned inner list is the body of exactly one `grequests.post`. -/
def mkChunksAux (ptcl : Nat) : List Point → List Point → Nat → List (List Point)
  | [], ptl, _ => if ptl.isEmpty then [] else [ptl]
  | v :: rest, ptl, ptc =>
    if ptc + 1 = ptcl then (ptl ++ [v]) :: mkChunksAux ptcl rest [] 0
    else mkChunksAux ptcl rest (ptl ++ [v]) (ptc + 1)

/-- The chunk (request body) list dispatched by `Connection.put`. -/
def mkChunks (ptcl : Nat) (vals : List Point) : List (List Point) :=
  mkChunksAux ptcl vals [] 0

/-- One retry round's filter (client.py line 212):
`pts = [x for x in pts if not 200 <= x.response.status_code <= 300]` — note
the closed upper bound.  Requests are identified by their index in the
original chunk list; `oracle round idx` is the HTTP status the transport
returns for request `idx` in the given round. -/
def roundStep (oracle : Nat → Nat → Nat) (attempts : Nat) (pts : List Nat) : List Nat :=
  pts.filter (fun i => !decide (200 ≤ oracle attempts i ∧ oracle attempts i ≤ 300))

/-- The retry loop of `Connection.put` (client.py lines 203-214):
`while attempts < att and fails > 0`, with `fails` initialised to `1`.
The fuel is `att - attempts`; returns the final pending request list together
with the final value of the `fails` variable (which is *not* re-computed when
the loop body never runs, e.g. when `att = 0`). -/
def putLoopAux (oracle : Nat → Nat → Nat) :
    Nat → Nat → Nat → List Nat → List Nat × Nat
  | 0, _, fails, pts => (pts, fails)
  | fuel + 1, attempts, fails, pts =>
    if fails > 0 then
      let newPts := roundStep oracle attempts pts
      putLoopAux oracle fuel (attempts + 1) newPts.length newPts
    else
      (pts, fails)

/-- The dict returned by `Connection.put` (client.py lines 221-225). -/
structure PutOutcome where
  points : Nat
  success : Int
  failed : Nat
  deriving DecidableEq

/-- Model of `Connection.put` (client.py lines 130-225), up to the external HTTP
transport: validate the timestamp list, build one point per value, partition
the points into chunks of `ptcl` (one request per chunk), run the bounded
retry loop, and report `{'points': len(values),
'success': len(values) - fails, 'failed': fails}` where `fails` is the final
value of the loop's chunk-counting variable. -/
def put (metric : String) (timestamps : List Int) (values : List ℚ)
    (tags : List (String × String)) (ptcl att : Nat) (oracle : Nat → Nat → Nat)
    (now : Int) : Except PyError PutOutcome :=
  if timestamps ≠ [] ∧ timestamps.length ≠ values.length then
    .error (.assertionError "Field <timestamps> dont fit field <values>.")
  else
    let points := buildPoints metric timestamps tags now 0 values
    let chunks := mkChunks ptcl points
    let pts := List.range chunks.length
    let fails := (putLoopAux oracle att 0 1 pts).2
    .ok { points := values.length,
          success := (values.length : Int) - (fails : Int),
          failed := fails }

/-- The pending request list at the moment the retry loop of `put` ends: the
value of the `pts` variable after the `while` loop (client.py line 212-214),
identifying each request by its index in the chunk list. -/
def putPending (metric : String) (timestamps : List Int) (values : List ℚ)
    (tags : List (String × String)) (ptcl att : Nat) (oracle : Nat → Nat → Nat)
    (now : Int) : List Nat :=
  (putLoopAux oracle att 0 1
    (List.range (mkChunks ptcl (buildPoints metric timestamps tags now 0 values)).length)).1

/-- A timestamp as it appears in a reshaped query result: either the raw
string key of the datapoint map (`tsd=False`) or the external
`datetime.fromtimestamp(float(key))` conversion (`tsd=True`), modelled as a
tag around the key it converts. -/
inductive TsOut
  | raw (s : String)
  | dt (s : String)
  deriving DecidableEq

/-- One per-series record of a reshaped (`union=False`) query result
(client.py lines 311-319).  `timestamps = none` models the
`del resd['timestamps']` performed when `nots=True`. -/
structure SeriesOut where
  metric : String
  tags : List (String × String)
  timestamps : Option (List TsOut)
  values : List ℚ
  deriving DecidableEq

/-- One element of the decoded `/api/query` response list: either a series
dict (it has a `'metric'` key, plus `'tags'` and the datapoint map `'dps'`)
or the trailing summary dict (no `'metric'` key, only `'statsSummary'`). -/
inductive QEntry
  | series (metric : String) (tags : List (String × String)) (dps : List (String × ℚ))
  | stats (summary : Json)

/-- The order Python's `sorted` uses on `dps.items()`: tuple comparison,
i.e. lexicographically by the (string) timestamp key and then by value. -/
def pairLe (a b : String × ℚ) : Prop :=
  a.1 < b.1 ∨ (a.1 = b.1 ∧ a.2 ≤ b.2)

instance : DecidableRel pairLe := fun a b =>
  inferInstanceAs (Decidable (_ ∨ _))

instance : IsTotal (String × ℚ) pairLe where
  total a b := by
    rcases lt_trichotomy a.1 b.1 with h | h | h
    · exact Or.inl (Or.inl h)
    · rcases le_total a.2 b.2 with h2 | h2
      · exact Or.inl (Or.inr ⟨h, h2⟩)
      · exact Or.inr (Or.inr ⟨h.symm, h2⟩)
    · exact Or.inr (Or.inl h)

instance : IsTrans (String × ℚ) pairLe where
  trans a b c hab hbc := by
    rcases hab with hab | ⟨hab, hab2⟩
    · rcases hbc with hbc | ⟨hbc, _⟩
      · exact Or.inl (hab.trans hbc)
      · exact Or.inl (hbc ▸ hab)
    · rcases hbc with hbc | ⟨hbc, hbc2⟩
      · exact Or.inl (hab ▸ hbc)
      · exact Or.inr ⟨hab.trans hbc, hab2.trans hbc2⟩

/-- Model of `sorted(dps.items())` (client.py lines 295 and 310).  The Python sort is a
stable sort under tuple comparison; since tuple comparison on the pairs is a
total, transitive and antisymmetric order, every correct sort produces the
same list, modelled here with insertion sort along `pairLe`. -/
def pySortPairs (l : List (String × ℚ)) : List (String × ℚ) :=
  List.insertionSort pairLe l

/-- The timestamp column produced for sorted points (client.py lines 298-301
and 312-316): `datetime.fromtimestamp(float(x[0]))` when `tsd`, else the raw
key `x[0]`. -/
def tsColumn (tsd : Bool) (points : List (String × ℚ)) : List TsOut :=
  if tsd then points.map (fun x => TsOut.dt x.1)
  else points.map (fun x => TsOut.raw x.1)

/-- One `resd` record of the `union=False` branch (client.py lines 309-319):
sort the datapoints, take the values column in that order, and attach or
delete the timestamp column according to `nots`/`tsd`. -/
def seriesShape (nots tsd : Bool) (metric : String) (tags : List (String × String))
    (dps : List (String × ℚ)) : SeriesOut :=
  let points := pySortPairs dps
  { metric := metric,
    tags := tags,
    timestamps := if !nots then some (tsColumn tsd points) else none,
    values := points.map (fun y => y.2) }

/-- The `dpss[k] = v` dict update of the `union=True` branch (client.py line
294): overwrite an existing key in place, otherwise add the pair.  (Python 2
dict iteration order is hash-based, but `sorted` below erases it, so an
insertion-ordered association list is an equivalent model.) -/
def dictUpdate (d : List (String × ℚ)) (k : String) (v : ℚ) : List (String × ℚ) :=
  if (d.lookup k).isSome then d.map (fun p => if p.1 = k then (k, v) else p)
  else d ++ [(k, v)]

/-- The merge loop of the `union=True` branch (client.py lines 290-294):
fold every series' datapoints into one dict, later entries overwriting
earlier ones on timestamp collisions; non-series entries are skipped by the
`'metric' in x.keys()` test. -/
def unionMerge (entries : List QEntry) : List (String × ℚ) :=
  entries.foldl
    (fun acc e =>
      match e with
      | .series _ _ dps => dps.foldl (fun a p => dictUpdate a p.1 p.2) acc
      | .stats _ => acc)
    []

/-- The value `Connection.query` returns (or the raw decoded pieces it is
built from): the raw body string (`show_json=True`), the single merged
record of `union=True`, the per-series record list of `union=False`, or the
empty list returned on a non-success status. -/
inductive QueryRet
  | rawText (s : String)
  | unionRes (timestamps : Option (List TsOut)) (values : List ℚ) (summary : Option Json)
  | listRes (results : List SeriesOut) (summary : Option Json)
  | noResults

/-- The `union=True` shape (client.py lines 289-304). -/
def unionShape (nots tsd : Bool) (entries : List QEntry) : QueryRet :=
  let points := pySortPairs (unionMerge entries)
  .unionRes (if !nots then some (tsColumn tsd points) else none)
    (points.map (fun x => x.2)) none

/-- The `union=False` shape (client.py lines 306-319). -/
def listShape (nots tsd : Bool) (entries : List QEntry) : QueryRet :=
  .listRes
    (entries.filterMap
      (fun e =>
        match e with
        | .series m t dps => some (seriesShape nots tsd m t dps)
        | .stats _ => none))
    none

/-- The keys of the request-payload dict `data` built by `Connection.query`
(client.py lines 267-279): `'start'`, `'queries'` and optionally `'end'`
(values are irrelevant to the lookups the code performs on it). -/
def queryPayloadKeys (endv : Option String) : List (PyKey × Unit) :=
  [(.str "start", ()), (.str "queries", ())] ++
    (match endv with
     | some _ => [(.str "end", ())]
     | none => [])

/-- The value of the local variable `data` at the summary-attachment point of
`Connection.query`: still the request payload in the `show_json` branch, the
decoded response list otherwise (reassigned at client.py line 288). -/
inductive QEData
  | reqPayload (d : List (PyKey × Unit))
  | respList (l : List QEntry)

/-- A Python dict subscript `d[k]`: `KeyError` when the key is absent. -/
def pyDictGet (d : List (PyKey × Unit)) (k : PyKey) : Except PyError Unit :=
  match d.lookup k with
  | some v => .ok v
  | none => .error (.keyError k)

/-- Model of `data[-1]` at client.py line 321: a negative subscript is a `KeyError`
on the request-payload dict (its keys are strings, so the lookup of the
integer key misses them all) and the last element of the decoded response
list (`IndexError` when that list is empty).  The `.ok` arm of the dict
lookup is unreachable for payloads built by `queryPayloadKeys` and only
repeats the `KeyError` for totality. -/
def dataGetLast : QEData → Except PyError QEntry
  | .reqPayload d =>
    match pyDictGet d (.int (-1)) with
    | .ok _ => .error (.keyError (.int (-1)))
    | .error e => .error e
  | .respList l =>
    match l.getLast? with
    | some x => .ok x
    | none => .error (.indexError "list index out of range")

/-- Model of the subscript `entry['statsSummary']`: present only on the trailing summary dict; a
series dict has no such key, so the subscript raises `KeyError`. -/
def entryStatsSummary : QEntry → Except PyError Json
  | .series _ _ _ => .error (.keyError (.str "statsSummary"))
  | .stats j => .ok j

/-- Model of `result['summary'] = s` (client.py line 321): item assignment on the
string result of the `show_json` branch is a `TypeError`; on a dict result
it stores the summary. -/
def attachSummary : QueryRet → Json → Except PyError QueryRet
  | .rawText _, _ => .error (.typeError "str object does not support item assignment")
  | .unionRes t v _, s => .ok (.unionRes t v (some s))
  | .listRes r _, s => .ok (.listRes r (some s))
  | .noResults, _ => .error (.typeError "list indices must be integers, not str")

/-- The whole statement `result['summary'] = data[-1]['statsSummary']`
(client.py lines 320-321), evaluated in Python order: the right-hand side
(`data[-1]`, then its `'statsSummary'` subscript) runs before the item
assignment on `result`. -/
def summaryStep (result : QueryRet) (d : QEData) : Except PyError QueryRet :=
  match dataGetLast d with
  | .error e => .error e
  | .ok entry =>
    match entryStatsSummary entry with
    | .error e => .error e
    | .ok s => attachSummary result s

/-- Model of `Connection.query` (client.py lines 227-325), up to the external HTTP
transport: assert the aggregator is cached, build the payload, and reshape
the response.  `status` and `rawText` are the transport's response; `body` is
its decoded JSON (consumed only by the non-`show_json` branches).  Note the
closed success range `200 <= resp.status_code <= 300` at line 282, and that
a non-success status returns the empty list. -/
def query (aggregators : List String) (metric aggr : String)
    (tags : List (String × String)) (start : String) (endv : Option String)
    (show_summary show_json nots tsd uni : Bool)
    (status : Nat) (rawText : String) (body : List QEntry) :
    Except PyError QueryRet :=
  if aggr ∈ aggregators then
    if 200 ≤ status ∧ status ≤ 300 then
      let (result, dataV) :=
        if show_json then
          (QueryRet.rawText rawText, QEData.reqPayload (queryPayloadKeys endv))
        else
          (if uni then unionShape nots tsd body else listShape nots tsd body,
           QEData.respList body)
      if show_summary then summaryStep result dataV else .ok result
    else
      .ok .noResults
  else
    .error (.assertionError "The aggregator is not valid. Check OTSDB docs for more details.")

/-- The per-metric validation condition of `Connection.query_expressions`
(client.py lines 382-384): `not ['id', 'name'] in m.keys()`, i.e. the *list*
`['id', 'name']` tested for membership among the dict's string keys. -/
def metricAssertCond (m : List (String × String)) : Bool :=
  !decide (PyV.strList ["id", "name"] ∈ m.map (fun p => PyV.str p.1))

/-- The per-expression validation condition of `Connection.query_expressions`
(client.py lines 391-393): `not ['id', 'expr'] in e.keys()`. -/
def exprAssertCond (e : List (String × String)) : Bool :=
  !decide (PyV.strList ["id", "expr"] ∈ e.map (fun p => PyV.str p.1))

/-- A Python dict subscript `m[k]` on a string-to-string dict. -/
def pyStrGet (m : List (String × String)) (k : String) : Except PyError String :=
  match m.lookup k with
  | some v => .ok v
  | none => .error (.keyError (.str k))

/-- One element of the `metrics` list composed by
`Connection.query_expressions` (client.py lines 407-412). -/
structure MetricOut where
  id : String
  metric : String
  filter : String
  fillPolicy : String
  deriving DecidableEq

/-- One element of the `expressions` list composed by
`Connection.query_expressions` (client.py lines 415-418). -/
structure ExprOut where
  id : String
  expr : String
  deriving DecidableEq

/-- One element of the hardcoded `outputs` list (client.py lines 420-423). -/
structure OutputOut where
  id : String
  aliasName : String
  deriving DecidableEq

/-- The hardcoded `outputs` list of `Connection.query_expressions`. -/
def outputsConst : List OutputOut :=
  [⟨"e2", "Mega expression"⟩, ⟨"a", "Test expression"⟩]

/-- The `time` dict of `Connection.query_expressions`
(client.py lines 396-401). -/
structure QETime where
  start : String
  aggregator : String
  endv : Option String
  deriving DecidableEq

/-- The composed `/api/query/exp` request payload
(client.py lines 426-432). -/
structure QEPayload where
  time : QETime
  metrics : List MetricOut
  filters : FilterObj
  expressions : List ExprOut
  outputs : List OutputOut
  deriving DecidableEq

/-- Model of `Connection.query_expressions` (client.py lines 350-436), up to the
external POST: run the validation asserts in source order, build the `time`
dict, generate the shared filter (mutating the connection's id counters),
then build the metric and expression lists, both taking their `'id'` fields
from the caller's input dicts (`x['id']`) — a missing key raises `KeyError`
at that point, after the filter id was already drawn.  The `filter` field is
`filters['id']` (the two-key filter dict is always truthy).  `vpol` and
`show_json` are accepted and unused, as in the source.  Returns the payload
the method would POST, alongside the final counter state. -/
def query_expressions (aggregators : List String) (aggr start : String)
    (endv : Option String) (_vpol : Int) (_show_json : Bool)
    (metrics : List (List (String × String))) (tags : List String)
    (expr : List (List (String × String))) (st : List (String × Nat)) :
    Except PyError QEPayload × List (String × Nat) :=
  if metrics.length < 1 then
    (.error (.assertionError "Field <metrics> must have at least one metric"), st)
  else if !(metrics.all metricAssertCond) then
    (.error (.assertionError "The metric object must have the fields <id> and <name>"), st)
  else if !(tags.length > 0) then
    (.error (.assertionError "Field <tags> is not valid."), st)
  else if aggr ∉ aggregators then
    (.error (.assertionError "The aggregator is not valid. Check OTSDB docs for more details."), st)
  else if expr.length = 0 then
    (.error (.assertionError "Field <expr> must have at least one expression"), st)
  else if !(expr.all exprAssertCond) then
    (.error (.assertionError "The expression object must have the fields <id> and <expr>"), st)
  else
    let time : QETime := ⟨start, aggr, endv⟩
    match generate_filter tags false st with
    | (.error e, st') => (.error e, st')
    | (.ok filters, st') =>
      match metrics.mapM (fun x => do
          let i ← pyStrGet x "id"
          let nm ← pyStrGet x "name"
          pure (⟨i, nm, filters.id, "nan"⟩ : MetricOut)) with
      | .error e => (.error e, st')
      | .ok mouts =>
        match expr.mapM (fun x => do
            let i ← pyStrGet x "id"
            let ex ← pyStrGet x "expr"
            pure (⟨i, ex⟩ : ExprOut)) with
        | .error e => (.error e, st')
        | .ok eouts =>
          (.ok ⟨time, mouts, filters, eouts, outputsConst⟩, st')

/-- Looking up a key absent from the endpoint table yields `none`. -/
theorem lookup_endpoint_none {key : String}
    (h : key ∉ ["filters", "query_exp", "aggr", "suggest", "version", "put",
      "query", "stats"]) :
    endpointTable.lookup key = none := by
  simp only [List.mem_cons, List.not_mem_nil, or_false, not_or] at h
  obtain ⟨h1, h2, h3, h4, h5, h6, h7, h8⟩ := h
  have e1 : (key == "filters") = false := by simp [h1]
  have e2 : (key == "query_exp") = false := by simp [h2]
  have e3 : (key == "aggr") = false := by simp [h3]
  have e4 : (key == "suggest") = false := by simp [h4]
  have e5 : (key == "version") = false := by simp [h5]
  have e6 : (key == "put") = false := by simp [h6]
  have e7 : (key == "query") = false := by simp [h7]
  have e8 : (key == "stats") = false := by simp [h8]
  simp [endpointTable, List.lookup, e1, e2, e3, e4, e5, e6, e7, e8]

/-- C5: every key outside the enumerated set (the empty/default key
included) makes the endpoint resolver fail, and every key inside it resolves
to its fixed URL path.  (In the source, the failure surfaces as the
`TypeError` from `'/api' + None`; the `assert` meant to guard this is dead
code.) -/
theorem claim_c5 :
    (∀ key : String,
        key ∉ ["filters", "query_exp", "aggr", "suggest", "version", "put",
          "query", "stats"] →
          get_endpoint key =
            .error (.typeError "cannot concatenate str and NoneType objects")) ∧
    get_endpoint "" = .error (.typeError "cannot concatenate str and NoneType objects") ∧
    get_endpoint "filters" = .ok "/api/config/filters" ∧
    get_endpoint "query_exp" = .ok "/api/query/exp" ∧
    get_endpoint "aggr" = .ok "/api/aggregators" ∧
    get_endpoint "suggest" = .ok "/api/suggest" ∧
    get_endpoint "version" = .ok "/api/version" ∧
    get_endpoint "put" = .ok "/api/put?details" ∧
    get_endpoint "query" = .ok "/api/query" ∧
    get_endpoint "stats" = .ok "/api/stats" := by
  refine ⟨fun key h => ?_, rfl, rfl, rfl, rfl, rfl, rfl, rfl, rfl, rfl⟩
  rw [get_endpoint, lookup_endpoint_none h]

/-- Witness for C5 at the concrete invalid key `"bogus"`. -/
theorem claim_c5_witness :
    get_endpoint "bogus" = .error (.typeError "cannot concatenate str and NoneType objects") :=
  claim_c5.1 "bogus" (by decide)

/-- C6: the response normalizer returns the decoded value for a success
status and truthy decoded body, the distinct no-data indicator for a success
status and empty (falsy) decoded body, and the failure indicator — without
raising — for every status outside `[200, 300)` whatever the body is. -/
theorem claim_c6 (status : Nat) (body : Option Json) :
    (¬ (200 ≤ status ∧ status < 300) → process_response status body = .ok .failure) ∧
    ((200 ≤ status ∧ status < 300) →
      ∀ j, body = some j →
        (j.truthy = true → process_response status body = .ok (.data j)) ∧
        (j.truthy = false → process_response status body = .ok .noData)) := by
  constructor
  · intro h
    simp [process_response, h]
  · intro h j hj
    subst hj
    constructor <;> intro ht <;> simp [process_response, h, ht]

/-- Witness for C6: a 404 is reported as failure (not raised), a truthy 200
body is returned decoded, and a falsy 200 body becomes the no-data value. -/
theorem claim_c6_witness :
    process_response 404 (some Json.null) = .ok .failure ∧
    process_response 200 (some (Json.arr [Json.num 1])) =
      .ok (.data (Json.arr [Json.num 1])) ∧
    process_response 200 (some (Json.arr [])) = .ok .noData := by
  refine ⟨(claim_c6 404 (some Json.null)).1 (by omega), ?_, ?_⟩
  · exact ((claim_c6 200 (some (Json.arr [Json.num 1]))).2 (by omega)
      (Json.arr [Json.num 1]) rfl).1 rfl
  · exact ((claim_c6 200 (some (Json.arr []))).2 (by omega) (Json.arr []) rfl).2 rfl

/-- The list `['id', 'name']` is never equal to any string dict key, so the
per-metric assert condition always holds. -/
theorem metricAssertCond_eq_true (m : List (String × String)) :
    metricAssertCond m = true := by
  simp [metricAssertCond, List.mem_map]

/-- The list `['id', 'expr']` is never equal to any string dict key, so the
per-expression assert condition always holds. -/
theorem exprAssertCond_eq_true (e : List (String × String)) :
    exprAssertCond e = true := by
  simp [exprAssertCond, List.mem_map]

/-- C10: the per-element validation asserts of `query_expressions` are
vacuous — the list `['id', 'name']` (resp. `['id', 'expr']`) is never an
element of a dict's string keys — so a metric dict with no `'id'` key passes
validation and the call instead dies with `KeyError('id')` while building
the payload, after the filter counter was already incremented from 0 to 1. -/
theorem claim_c10 :
    (∀ m : List (String × String), metricAssertCond m = true) ∧
    (∀ e : List (String × String), exprAssertCond e = true) ∧
    query_expressions ["sum"] "sum" "1d-ago" none 0 true [[]] ["host"]
        [[("id", "e"), ("expr", "x")]] idsInit =
      (.error (.keyError (.str "id")), [("filter", 1), ("metric", 0), ("expression", 0)]) :=
  ⟨metricAssertCond_eq_true, exprAssertCond_eq_true, rfl⟩

/-- C3 counterexample at status 300: `put`'s round filter drops a request
whose status is 300 (treats it as success), although 300 lies outside
`[200, 300)`, so the code's pending set differs from the claim's
characterisation; likewise `query` enters its success branch at 300 while
`process_response` classifies the very same status as a failure. -/
theorem claim_c3_counterexample :
    roundStep (fun _ _ => 300) 0 [0] = [] ∧
    List.filter (fun _ => !decide (200 ≤ (300 : Nat) ∧ (300 : Nat) < 300)) [0] = [0] ∧
    roundStep (fun _ _ => 300) 0 [0] ≠
      List.filter (fun _ => !decide (200 ≤ (300 : Nat) ∧ (300 : Nat) < 300)) [0] ∧
    query ["sum"] "m" "sum" [] "1h-ago" none false true false false false 300 "B" [] =
      .ok (.rawText "B") ∧
    process_response 300 (some (Json.num 1)) = .ok .failure :=
  ⟨rfl, rfl, by decide, rfl, rfl⟩

/-- C3 amended: the write retry filter and the query success gate use the
*closed* range `[200, 300]` (statuses 200 through 300 inclusive count as
success), while only `process_response` uses the half-open `[200, 300)`:
a pending request after a round is exactly one whose status fell outside
`[200, 300]`, `query` reaches its success branch exactly for statuses in
`[200, 300]`, and `process_response` reports failure exactly for statuses
outside `[200, 300)`. -/
theorem claim_c3_amended :
    (∀ (oracle : Nat → Nat → Nat) (a : Nat) (pts : List Nat) (i : Nat),
        i ∈ roundStep oracle a pts ↔
          i ∈ pts ∧ ¬ (200 ≤ oracle a i ∧ oracle a i ≤ 300)) ∧
    (∀ (aggrs : List String) (metric aggr : String) (tags : List (String × String))
        (start : String) (endv : Option String) (status : Nat) (raw : String)
        (body : List QEntry), aggr ∈ aggrs →
        ((200 ≤ status ∧ status ≤ 300) →
          query aggrs metric aggr tags start endv false true false false false
              status raw body = .ok (.rawText raw)) ∧
        (¬ (200 ≤ status ∧ status ≤ 300) →
          query aggrs metric aggr tags start endv false true false false false
              status raw body = .ok .noResults)) ∧
    (∀ (status : Nat) (body : Option Json),
        process_response status body = .ok .failure ↔ ¬ (200 ≤ status ∧ status < 300)) := by
  refine ⟨fun oracle a pts i => ?_, fun aggrs metric aggr tags start endv status raw body h0 => ?_, fun status body => ?_⟩
  · simp [roundStep, List.mem_filter]
    intro _
    omega
  · constructor <;> intro h <;> simp [query, h0, h]
  · constructor
    · intro heq
      by_contra h300
      cases body with
      | none => simp [process_response, h300] at heq
      | some j =>
        simp [process_response, h300] at heq
        split at heq <;> simp at heq
    · intro h
      simp [process_response, h]

/-- Witness for C3 (amended): a status-500 request stays pending, status 200
and 404 queries take the success and failure branches, and a 404 makes
`process_response` report failure. -/
theorem claim_c3_witness :
    0 ∈ roundStep (fun _ _ => 500) 0 [0] ∧
    query ["sum"] "m" "sum" [] "1h-ago" none false true false false false 200 "B" [] =
      .ok (.rawText "B") ∧
    query ["sum"] "m" "sum" [] "1h-ago" none false true false false false 404 "B" [] =
      .ok .noResults ∧
    process_response 404 none = .ok .failure := by
  refine ⟨(claim_c3_amended.1 (fun _ _ => 500) 0 [0] 0).mpr ⟨by decide, by omega⟩,
    (claim_c3_amended.2.1 ["sum"] "m" "sum" [] "1h-ago" none 200 "B" [] (by decide)).1
      (by omega),
    (claim_c3_amended.2.1 ["sum"] "m" "sum" [] "1h-ago" none 404 "B" [] (by decide)).2
      (by omega),
    (claim_c3_amended.2.2 404 none).mpr (by omega)⟩

/-- Unfolding one `generate_id` call at the head of a `runGen` sequence. -/
theorem runGen_cons (t : String) (ts : List String) (st : List (String × Nat)) :
    runGen (t :: ts) st =
      ((generate_id t st).1 :: (runGen ts (generate_id t st).2).1,
        (runGen ts (generate_id t st).2).2) := rfl

/-- State evolution of the id counters: a call sequence advances each of the
three counters by exactly the number of calls naming its kind (calls with an
unknown kind fail the assert and leave the state untouched). -/
theorem runGen_snd (calls : List String) (a b c : Nat) :
    (runGen calls [("filter", a), ("metric", b), ("expression", c)]).2 =
      [("filter", a + calls.count "filter"), ("metric", b + calls.count "metric"),
        ("expression", c + calls.count "expression")] := by
  induction calls generalizing a b c with
  | nil => simp [runGen]
  | cons t ts ih =>
    rw [runGen_cons]
    by_cases h1 : t = "filter"
    · subst h1
      rw [show (generate_id "filter" [("filter", a), ("metric", b), ("expression", c)]).2 =
          [("filter", a + 1), ("metric", b), ("expression", c)] from rfl]
      rw [ih (a + 1) b c]
      simp [List.count_cons]
      omega
    · by_cases h2 : t = "metric"
      · subst h2
        rw [show (generate_id "metric" [("filter", a), ("metric", b), ("expression", c)]).2 =
            [("filter", a), ("metric", b + 1), ("expression", c)] from rfl]
        rw [ih a (b + 1) c]
        simp [List.count_cons, h1]
        omega
      · by_cases h3 : t = "expression"
        · subst h3
          rw [show (generate_id "expression"
                [("filter", a), ("metric", b), ("expression", c)]).2 =
              [("filter", a), ("metric", b), ("expression", c + 1)] from rfl]
          rw [ih a b (c + 1)]
          simp [List.count_cons, h1, h2]
          omega
        · have b1 : (t == "filter") = false := by simp [h1]
          have b2 : (t == "metric") = false := by simp [h2]
          have b3 : (t == "expression") = false := by simp [h3]
          have hid : generate_id t [("filter", a), ("metric", b), ("expression", c)] =
              (.error (.assertionError "Field <tip> is not valid."),
                [("filter", a), ("metric", b), ("expression", c)]) := by
            simp [generate_id, List.lookup, b1, b2, b3]
          rw [hid]
          rw [ih a b c]
          have c1 : ("filter" == t) = false := by simp [Ne.symm h1]
          have c2 : ("metric" == t) = false := by simp [Ne.symm h2]
          have c3 : ("expression" == t) = false := by simp [Ne.symm h3]
          simp [List.count_cons, c1, c2, c3]
          exact ⟨h1, h2, h3⟩

/-- The `i`-th result of a call sequence is `generate_id` of the `i`-th kind
run in the state reached after the first `i` calls. -/
theorem runGen_fst_getD (calls : List String) (st : List (String × Nat)) (i : Nat)
    (hlt : i < calls.length) :
    (runGen calls st).1.getD i (.ok "") =
      (generate_id (calls.getD i "") (runGen (calls.take i) st).2).1 := by
  induction calls generalizing st i with
  | nil => simp at hlt
  | cons t ts ih =>
    cases i with
    | zero => rfl
    | succ i =>
      rw [runGen_cons]
      have : ((t :: ts).take (i + 1)) = t :: ts.take i := rfl
      rw [this, runGen_cons]
      simpa using ih (generate_id t st).2 i (by simpa using hlt)

/-- Taking one more element of a list appends its `i`-th entry. -/
theorem take_succ_getD (l : List String) (i : Nat) (h : i < l.length) :
    l.take (i + 1) = l.take i ++ [l.getD i ""] := by
  induction l generalizing i with
  | nil => simp at h
  | cons x xs ih =>
    cases i with
    | zero => simp
    | succ i =>
      simp only [List.take_succ_cons, List.getD_cons_succ]
      rw [ih i (by simpa using h)]
      simp

/-- C8: on a fresh connection, for every interleaving of `generate_id`
calls, a call with one of the three valid kinds returns the kind's first
letter followed by the number of calls of that same kind made so far (calls
of other kinds never disturb the counter), and any other kind fails the
assert, leaving the counters untouched. -/
theorem claim_c8 :
    (∀ (calls : List String) (i : Nat), i < calls.length →
        calls.getD i "" ∈ (["filter", "metric", "expression"] : List String) →
        (runGen calls idsInit).1.getD i (.ok "") =
          .ok ((calls.getD i "").take 1 ++
            toString ((calls.take (i + 1)).count (calls.getD i "")))) ∧
    (∀ tid, tid ∉ (["filter", "metric", "expression"] : List String) →
        ∀ a b c, generate_id tid [("filter", a), ("metric", b), ("expression", c)] =
          (.error (.assertionError "Field <tip> is not valid."),
            [("filter", a), ("metric", b), ("expression", c)])) := by
  constructor
  · intro calls i hlt hmem
    rw [runGen_fst_getD calls idsInit i hlt,
      show idsInit = [("filter", 0), ("metric", 0), ("expression", 0)] from rfl,
      runGen_snd (calls.take i) 0 0 0,
      take_succ_getD calls i hlt, List.count_append]
    simp only [List.mem_cons, List.not_mem_nil, or_false] at hmem
    rcases hmem with h | h | h <;> rw [h] <;>
      simp [generate_id, List.lookup, List.count_cons]
  · intro tid hmem a b c
    simp only [List.mem_cons, List.not_mem_nil, or_false, not_or] at hmem
    obtain ⟨n1, n2, n3⟩ := hmem
    have b1 : (tid == "filter") = false := by simp [n1]
    have b2 : (tid == "metric") = false := by simp [n2]
    have b3 : (tid == "expression") = false := by simp [n3]
    simp [generate_id, List.lookup, b1, b2, b3]

/-- Witness for C8: the interleaving `filter, metric, filter, filter` on a
fresh connection yields `f1, m1, f2, f3`, and the invalid kind `"tags"`
fails the assert without touching the fresh counters. -/
theorem claim_c8_witness :
    (runGen ["filter", "metric", "filter", "filter"] idsInit).1.getD 0 (.ok "") = .ok "f1" ∧
    (runGen ["filter", "metric", "filter", "filter"] idsInit).1.getD 1 (.ok "") = .ok "m1" ∧
    (runGen ["filter", "metric", "filter", "filter"] idsInit).1.getD 2 (.ok "") = .ok "f2" ∧
    (runGen ["filter", "metric", "filter", "filter"] idsInit).1.getD 3 (.ok "") = .ok "f3" ∧
    generate_id "tags" idsInit =
      (.error (.assertionError "Field <tip> is not valid."), idsInit) :=
  ⟨claim_c8.1 ["filter", "metric", "filter", "filter"] 0 (by simp) (by decide),
   claim_c8.1 ["filter", "metric", "filter", "filter"] 1 (by simp) (by decide),
   claim_c8.1 ["filter", "metric", "filter", "filter"] 2 (by simp) (by decide),
   claim_c8.1 ["filter", "metric", "filter", "filter"] 3 (by simp) (by decide),
   claim_c8.2 "tags" (by decide) 0 0 0⟩

/-- Flattening the chunks recovers the accumulator followed by the remaining
points: chunking loses no point and preserves the input order. -/
theorem mkChunksAux_join (ptcl : Nat) (vals ptl : List Point) (ptc : Nat) :
    (mkChunksAux ptcl vals ptl ptc).flatten = ptl ++ vals := by
  induction vals generalizing ptl ptc with
  | nil => cases ptl <;> simp [mkChunksAux]
  | cons v rest ih =>
    by_cases h : ptc + 1 = ptcl
    · simp [mkChunksAux, h, ih]
    · simp [mkChunksAux, h, ih]

/-- The chunk count follows the ceiling formula, tracked through the
accumulator invariant `ptl.length = ptc < ptcl`. -/
theorem mkChunksAux_length (ptcl : Nat) (hpt : 0 < ptcl) (vals ptl : List Point)
    (ptc : Nat) (hinv : ptl.length = ptc) (hlt : ptc < ptcl) :
    (mkChunksAux ptcl vals ptl ptc).length = (ptc + vals.length + ptcl - 1) / ptcl := by
  induction vals generalizing ptl ptc with
  | nil =>
    cases ptl with
    | nil =>
      simp only [List.length_nil] at hinv
      subst hinv
      simp only [mkChunksAux, List.isEmpty_nil, List.length_nil, if_true]
      rw [Nat.div_eq_of_lt (by omega)]
    | cons x xs =>
      rw [show mkChunksAux ptcl [] (x :: xs) ptc = [x :: xs] from rfl]
      simp only [List.length_singleton, List.length_nil]
      have h1 : ptc + 0 + ptcl - 1 = (ptc - 1) + ptcl := by
        simp only [List.length_cons] at hinv
        omega
      rw [h1, Nat.add_div_right _ hpt, Nat.div_eq_of_lt (by omega)]
  | cons v rest ih =>
    by_cases h : ptc + 1 = ptcl
    · simp only [mkChunksAux, if_pos h, List.length_cons]
      rw [ih [] 0 rfl hpt]
      have h2 : ptc + (rest.length + 1) + ptcl - 1 = (0 + rest.length + ptcl - 1) + ptcl := by
        omega
      rw [h2, Nat.add_div_right _ hpt]
    · simp only [mkChunksAux, if_neg h]
      rw [ih (ptl ++ [v]) (ptc + 1) (by simp [hinv]) (by omega)]
      congr 1
      simp only [List.length_cons]
      omega

/-- Every chunk is non-empty and no longer than the chunk size. -/
theorem mkChunksAux_sizes (ptcl : Nat) (vals ptl : List Point) (ptc : Nat)
    (hinv : ptl.length = ptc) (hlt : ptc < ptcl) :
    ∀ ch ∈ mkChunksAux ptcl vals ptl ptc, 0 < ch.length ∧ ch.length ≤ ptcl := by
  induction vals generalizing ptl ptc with
  | nil =>
    intro ch hch
    cases ptl with
    | nil => simp [mkChunksAux] at hch
    | cons x xs =>
      rw [show mkChunksAux ptcl [] (x :: xs) ptc = [x :: xs] from rfl,
        List.mem_singleton] at hch
      subst hch
      simp only [List.length_cons] at hinv ⊢
      omega
  | cons v rest ih =>
    intro ch hch
    by_cases h : ptc + 1 = ptcl
    · simp only [mkChunksAux, if_pos h, List.mem_cons] at hch
      rcases hch with rfl | hch
      · simp only [List.length_append, List.length_singleton, hinv]
        omega
      · exact ih [] 0 rfl (by omega) ch hch
    · simp only [mkChunksAux, if_neg h] at hch
      exact ih (ptl ++ [v]) (ptc + 1) (by simp [hinv]) (by omega) ch hch

/-- Every chunk except possibly the final one has length exactly the chunk
size: they are produced exclusively by the `ptc == ptcl` flush. -/
theorem mkChunksAux_dropLast (ptcl : Nat) (vals ptl : List Point) (ptc : Nat)
    (hinv : ptl.length = ptc) (hlt : ptc < ptcl) :
    ∀ ch ∈ (mkChunksAux ptcl vals ptl ptc).dropLast, ch.length = ptcl := by
  induction vals generalizing ptl ptc with
  | nil =>
    intro ch hch
    cases ptl <;> simp [mkChunksAux] at hch
  | cons v rest ih =>
    intro ch hch
    by_cases h : ptc + 1 = ptcl
    · simp only [mkChunksAux, if_pos h] at hch
      cases hrec : mkChunksAux ptcl rest [] 0 with
      | nil => rw [hrec] at hch; simp at hch
      | cons c0 cs =>
        rw [hrec, List.dropLast_cons₂, List.mem_cons] at hch
        rcases hch with rfl | hch
        · simp only [List.length_append, List.length_singleton, hinv]
          omega
        · have := ih [] 0 rfl (by omega)
          rw [hrec] at this
          exact this ch hch
    · simp only [mkChunksAux, if_neg h] at hch
      exact ih (ptl ++ [v]) (ptc + 1) (by simp [hinv]) (by omega) ch hch

/-- One point is built per value. -/
theorem buildPoints_length (metric : String) (timestamps : List Int)
    (tags : List (String × String)) (now : Int) :
    ∀ (n : Nat) (values : List ℚ),
      (buildPoints metric timestamps tags now n values).length = values.length := by
  intro n values
  induction values generalizing n with
  | nil => rfl
  | cons v rest ih => simp [buildPoints, ih]

/-- C7: for every chunk size `c ≥ 1` and non-empty value list, `put`
partitions the points — one per value, in input order — into exactly
`⌈n / c⌉` chunks, all of length `c` except possibly a shorter (non-empty)
final chunk.  Each chunk is the body of exactly one dispatched write request
(`mkChunks` returns precisely the request bodies `put` posts, one per
flush). -/
theorem claim_c7 (metric : String) (timestamps : List Int) (values : List ℚ)
    (tags : List (String × String)) (now : Int) (c : Nat)
    (hc : 1 ≤ c) (hv : values ≠ []) :
    (mkChunks c (buildPoints metric timestamps tags now 0 values)).flatten =
        buildPoints metric timestamps tags now 0 values ∧
    (mkChunks c (buildPoints metric timestamps tags now 0 values)).length =
        (values.length + c - 1) / c ∧
    mkChunks c (buildPoints metric timestamps tags now 0 values) ≠ [] ∧
    (∀ ch ∈ (mkChunks c (buildPoints metric timestamps tags now 0 values)).dropLast,
        ch.length = c) ∧
    (∀ ch ∈ mkChunks c (buildPoints metric timestamps tags now 0 values),
        0 < ch.length ∧ ch.length ≤ c) := by
  refine ⟨by simpa using mkChunksAux_join c (buildPoints metric timestamps tags now 0 values) [] 0,
    ?_, ?_,
    mkChunksAux_dropLast c (buildPoints metric timestamps tags now 0 values) [] 0 rfl hc,
    mkChunksAux_sizes c (buildPoints metric timestamps tags now 0 values) [] 0 rfl hc⟩
  · rw [mkChunks, mkChunksAux_length c hc (buildPoints metric timestamps tags now 0 values)
      [] 0 rfl hc, buildPoints_length]
    congr 1
    omega
  · intro hnil
    have hb : buildPoints metric timestamps tags now 0 values = [] := by
      have hj := mkChunksAux_join c (buildPoints metric timestamps tags now 0 values) [] 0
      rw [← mkChunks, hnil] at hj
      simpa using hj.symm
    have hlen := buildPoints_length metric timestamps tags now 0 values
    rw [hb] at hlen
    have hz : values.length = 0 := by simpa using hlen.symm
    exact hv (List.length_eq_zero.mp hz)

/-- Witness for C7: three values with chunk size two yield two chunks, of
sizes two and one, flattening back to the three points. -/
theorem claim_c7_witness :
    (mkChunks 2 (buildPoints "m" [] [] 0 0 [1, 2, 3])).length = 2 ∧
    (mkChunks 2 (buildPoints "m" [] [] 0 0 [1, 2, 3])).flatten =
      buildPoints "m" [] [] 0 0 [1, 2, 3] ∧
    (∀ ch ∈ (mkChunks 2 (buildPoints "m" [] [] 0 0 [1, 2, 3])).dropLast,
      ch.length = 2) := by
  have h := claim_c7 "m" [] [1, 2, 3] [] 0 2 (by omega) (by decide)
  exact ⟨h.2.1, h.1, h.2.2.2.1⟩

/-- If every response status falls outside the closed range `[200, 300]`, a
round never removes a request, so the loop runs out of attempts with every
request still pending; the final `fails` value is the pending count once at
least one round has run. -/
theorem putLoopAux_allfail (oracle : Nat → Nat → Nat)
    (hall : ∀ r i, ¬ (200 ≤ oracle r i ∧ oracle r i ≤ 300)) :
    ∀ (fuel a f : Nat) (pts : List Nat), 0 < f → pts ≠ [] →
      putLoopAux oracle fuel a f pts = (pts, if fuel = 0 then f else pts.length) := by
  intro fuel
  induction fuel with
  | zero => intro a f pts hf hne; rfl
  | succ fuel ih =>
    intro a f pts hf hne
    have hstep : roundStep oracle a pts = pts :=
      List.filter_eq_self.mpr (fun i _ => by
        have h := hall a i
        simp only [Bool.not_eq_true', decide_eq_false_iff_not]
        exact h)
    simp only [putLoopAux, hf, if_true, hstep]
    rw [ih (a + 1) pts.length pts (by simpa [List.length_pos] using hne) hne]
    simp

/-- C2 counterexample: two points in one chunk of size 2, the chunk failing
in its single round — the code reports `failed = 1` (the number of pending
*chunks*), not `failed = 2` (the number of submitted points) claimed. -/
theorem claim_c2_counterexample :
    put "m" [] [1, 2] [] 2 1 (fun _ _ => 500) 0 =
      .ok { points := 2, success := 1, failed := 1 } ∧
    (1 : Nat) ≠ 2 :=
  ⟨rfl, by omega⟩

/-- Once at least one round has run, the final value of the `fails` variable
is exactly the length of the final pending list (they can differ only when
`att = 0`, where `fails` keeps its initial value 1). -/
theorem putLoopAux_snd_eq_length_aux (oracle : Nat → Nat → Nat) :
    ∀ (fuel a : Nat) (pts : List Nat),
      (putLoopAux oracle fuel a pts.length pts).2 =
        (putLoopAux oracle fuel a pts.length pts).1.length := by
  intro fuel
  induction fuel with
  | zero => intro a pts; rfl
  | succ fuel ih =>
    intro a pts
    by_cases h : pts.length > 0
    · simp only [putLoopAux]
      rw [if_pos h]
      exact ih (a + 1) (roundStep oracle a pts)
    · simp only [putLoopAux]
      rw [if_neg h]

/-- Entering the loop with the initial `fails = 1` and positive fuel, the
returned `fails` equals the pending count. -/
theorem putLoopAux_snd_eq_length (oracle : Nat → Nat → Nat) (fuel a : Nat)
    (pts : List Nat) (hf : 0 < fuel) :
    (putLoopAux oracle fuel a 1 pts).2 = (putLoopAux oracle fuel a 1 pts).1.length := by
  cases fuel with
  | zero => omega
  | succ fuel =>
    simp only [putLoopAux]
    rw [if_pos (by omega : (0 : Nat) < 1)]
    exact putLoopAux_snd_eq_length_aux oracle fuel (a + 1) (roundStep oracle a pts)

/-- C2 amended: for every write call (any response pattern, partial failures
included) with `att ≥ 1`, the returned outcome is
`{points: len(values), success: len(values) - failedChunks,
failed: failedChunks}` where `failedChunks` is the *number of chunks* (not
the sum of their point counts) still pending when the retry loop ends; in
particular, if every chunk fails in every round, `failed` equals the chunk
count `⌈n / c⌉`, not the point count `n`. -/
theorem claim_c2_amended (metric : String) (timestamps : List Int)
    (values : List ℚ) (tags : List (String × String)) (ptcl att : Nat)
    (oracle : Nat → Nat → Nat) (now : Int) (ha : 1 ≤ att)
    (hts : timestamps = [] ∨ timestamps.length = values.length) :
    put metric timestamps values tags ptcl att oracle now =
      .ok { points := values.length,
            success := (values.length : Int) -
              ((putPending metric timestamps values tags ptcl att oracle now).length : Int),
            failed := (putPending metric timestamps values tags ptcl att oracle now).length } ∧
    (1 ≤ ptcl → values ≠ [] →
      (∀ r i, ¬ (200 ≤ oracle r i ∧ oracle r i ≤ 300)) →
      (putPending metric timestamps values tags ptcl att oracle now).length =
        (values.length + ptcl - 1) / ptcl) := by
  constructor
  · have hguard : ¬ (timestamps ≠ [] ∧ timestamps.length ≠ values.length) := by
      rcases hts with h | h <;> simp [h]
    simp only [put, putPending]
    rw [if_neg hguard, putLoopAux_snd_eq_length oracle att 0 _ (by omega)]
  · intro hp hv hall
    have hpos0 : 0 < values.length := List.length_pos.mpr hv
    have hlen : (mkChunks ptcl (buildPoints metric timestamps tags now 0 values)).length =
        (values.length + ptcl - 1) / ptcl := by
      rw [mkChunks,
        mkChunksAux_length ptcl hp (buildPoints metric timestamps tags now 0 values)
          [] 0 rfl hp,
        buildPoints_length]
      congr 1
      omega
    have hge : 1 ≤ (values.length + ptcl - 1) / ptcl := by
      rw [Nat.le_div_iff_mul_le hp]
      omega
    have hne : List.range ((values.length + ptcl - 1) / ptcl) ≠ [] := by
      simp only [ne_eq, List.range_eq_nil]
      omega
    simp only [putPending, hlen]
    rw [putLoopAux_allfail oracle hall att 0 1 _ (by omega) hne]
    simp

/-- Witness for C2 (amended): three values in chunks of two, both chunks
failing in both rounds, give a pending count of 2 chunks, hence
`failed = 2` and `success = 1`. -/
theorem claim_c2_witness :
    put "m" [] [1, 2, 3] [] 2 2 (fun _ _ => 500) 0 =
      .ok { points := 3, success := 1, failed := 2 } ∧
    (putPending "m" [] [1, 2, 3] [] 2 2 (fun _ _ => 500) 0).length = 2 := by
  have h := claim_c2_amended "m" [] [1, 2, 3] [] 2 2 (fun _ _ => 500) 0 (by omega)
    (Or.inl rfl)
  have h2 := h.2 (by omega) (by decide)
    (fun r i => by show ¬(200 ≤ 500 ∧ 500 ≤ 300); omega)
  refine ⟨?_, h2⟩
  rw [h.1, h2]
  rfl

/-- C1 counterexample: for the datapoint map `{"10": 1.0, "5": 2.0}` with
`nots=False, tsd=False, union=False`, the code sorts the *string* keys
lexicographically, producing timestamps `["10", "5"]` and values
`[1.0, 2.0]` — not the numerically ascending `[5, 10]` / `[2.0, 1.0]` the
claim states (the timestamps are also returned as raw strings, not
integers). -/
theorem claim_c1_counterexample :
    query ["sum"] "sys.cpu" "sum" [] "1h-ago" none false false false false false 200 "X"
        [.series "sys.cpu" [("host", "a")] [("10", 1), ("5", 2)]] =
      .ok (.listRes [⟨"sys.cpu", [("host", "a")],
        some [TsOut.raw "10", TsOut.raw "5"], [1, 2]⟩] none) ∧
    ([(1 : ℚ), 2] ≠ [(2 : ℚ), 1]) ∧
    ([TsOut.raw "10", TsOut.raw "5"] ≠ [TsOut.raw "5", TsOut.raw "10"]) := by
  have hp1 : pairLe ("10", (1 : ℚ)) ("5", 2) :=
    Or.inl (by rw [String.lt_iff_toList_lt]; decide)
  refine ⟨?_, by decide, by decide⟩
  simp [query, listShape, seriesShape, tsColumn, pySortPairs, List.insertionSort,
    List.orderedInsert, hp1]

/-- C1 amended: for every successful query with `show_json=False`, the
datapoints of each series of the response — and the merged series when
`union=True` — are emitted in the order given by Python tuple comparison on
the `(key, value)` pairs: ascending in the *lexicographic string order* of
the timestamp keys (which coincides with numeric order only for equal-length
keys), with the sorted keys themselves (raw strings, or their datetime
conversions when `tsd`) forming the timestamp column, omitted when `nots`;
so `{"10": 1.0, "5": 2.0}` yields timestamps `["10", "5"]` and values
`[1.0, 2.0]`. -/
theorem claim_c1_amended :
    (∀ dps : List (String × ℚ),
        (pySortPairs dps).Perm dps ∧ List.Sorted pairLe (pySortPairs dps)) ∧
    (∀ (aggrs : List String) (metric aggr : String) (qtags : List (String × String))
        (start : String) (endv : Option String) (nots tsd : Bool) (status : Nat)
        (raw : String) (entries : List QEntry),
        aggr ∈ aggrs → 200 ≤ status → status ≤ 300 →
        query aggrs metric aggr qtags start endv false false nots tsd false
            status raw entries =
          .ok (.listRes
            (entries.filterMap (fun e =>
              match e with
              | .series m t dps =>
                some ⟨m, t,
                  if !nots then some (tsColumn tsd (pySortPairs dps)) else none,
                  (pySortPairs dps).map (fun y => y.2)⟩
              | .stats _ => none))
            none)) ∧
    (∀ (aggrs : List String) (metric aggr : String) (qtags : List (String × String))
        (start : String) (endv : Option String) (nots tsd : Bool) (status : Nat)
        (raw : String) (entries : List QEntry),
        aggr ∈ aggrs → 200 ≤ status → status ≤ 300 →
        query aggrs metric aggr qtags start endv false false nots tsd true
            status raw entries =
          .ok (.unionRes
            (if !nots then some (tsColumn tsd (pySortPairs (unionMerge entries)))
             else none)
            ((pySortPairs (unionMerge entries)).map (fun x => x.2)) none)) := by
  refine ⟨fun dps =>
      ⟨List.perm_insertionSort pairLe dps, List.sorted_insertionSort pairLe dps⟩,
    fun aggrs metric aggr qtags start endv nots tsd status raw entries h0 h1 h2 => ?_,
    fun aggrs metric aggr qtags start endv nots tsd status raw entries h0 h1 h2 => ?_⟩
  · simp [query, h0, h1, h2, listShape, seriesShape]
  · simp [query, h0, h1, h2, unionShape]

/-- Witness for C1 (amended): the spec example `{"10": 1.0, "5": 2.0}` in a
per-series query, and the two-series union query `{"1": 10}`,
`{"1": 20, "2": 30}` merging last-write-wins to timestamps `["1", "2"]` and
values `[20, 30]`. -/
theorem claim_c1_witness :
    query ["sum"] "sys.cpu" "sum" [] "1h-ago" none false false false false false 200 "X"
        [.series "sys.cpu" [("host", "a")] [("10", 1), ("5", 2)]] =
      .ok (.listRes [⟨"sys.cpu", [("host", "a")],
        some [TsOut.raw "10", TsOut.raw "5"], [1, 2]⟩] none) ∧
    query ["sum"] "sys.cpu" "sum" [] "1h-ago" none false false false false true 200 "X"
        [.series "sys.cpu" [("host", "a")] [("1", 10)],
         .series "sys.cpu" [("host", "b")] [("1", 20), ("2", 30)]] =
      .ok (.unionRes (some [TsOut.raw "1", TsOut.raw "2"]) [20, 30] none) ∧
    (pySortPairs [("10", (1 : ℚ)), ("5", 2)]).Perm [("10", 1), ("5", 2)] ∧
    List.Sorted pairLe (pySortPairs [("10", (1 : ℚ)), ("5", 2)]) := by
  have hA := claim_c1_amended.2.1 ["sum"] "sys.cpu" "sum" [] "1h-ago" none false false
    200 "X" [.series "sys.cpu" [("host", "a")] [("10", 1), ("5", 2)]]
    (by decide) (by omega) (by omega)
  have hB := claim_c1_amended.2.2 ["sum"] "sys.cpu" "sum" [] "1h-ago" none false false
    200 "X" [.series "sys.cpu" [("host", "a")] [("1", 10)],
      .series "sys.cpu" [("host", "b")] [("1", 20), ("2", 30)]]
    (by decide) (by omega) (by omega)
  have hp1 : pairLe ("10", (1 : ℚ)) ("5", 2) :=
    Or.inl (by rw [String.lt_iff_toList_lt]; decide)
  have hsortA : pySortPairs [("10", (1 : ℚ)), ("5", 2)] = [("10", 1), ("5", 2)] := by
    simp [pySortPairs, List.insertionSort, List.orderedInsert, hp1]
  have hmerge : unionMerge [QEntry.series "sys.cpu" [("host", "a")] [("1", 10)],
      QEntry.series "sys.cpu" [("host", "b")] [("1", 20), ("2", 30)]] =
      [("1", 20), ("2", 30)] := rfl
  have hp2 : pairLe ("1", (20 : ℚ)) ("2", 30) :=
    Or.inl (by rw [String.lt_iff_toList_lt]; decide)
  have hsortB : pySortPairs [("1", (20 : ℚ)), ("2", 30)] = [("1", 20), ("2", 30)] := by
    simp [pySortPairs, List.insertionSort, List.orderedInsert, hp2]
  refine ⟨?_, ?_, (claim_c1_amended.1 [("10", 1), ("5", 2)]).1,
    (claim_c1_amended.1 [("10", 1), ("5", 2)]).2⟩
  · rw [hA]
    simp [hsortA, tsColumn]
  · rw [hB, hmerge]
    simp [hsortB, tsColumn]

/-- Building the payload's metric list succeeds, copying the `'id'` and
`'name'` fields verbatim from the caller's dicts, whenever every metric dict
has both keys. -/
theorem mapM_metricOut (fid : String) (ms : List (List (String × String)))
    (h : ∀ m ∈ ms, (m.lookup "id").isSome ∧ (m.lookup "name").isSome) :
    ms.mapM (fun x => do
        let i ← pyStrGet x "id"
        let nm ← pyStrGet x "name"
        pure (⟨i, nm, fid, "nan"⟩ : MetricOut)) =
      .ok (ms.map fun m =>
        (⟨(m.lookup "id").getD "", (m.lookup "name").getD "", fid, "nan"⟩ : MetricOut)) := by
  induction ms with
  | nil => rfl
  | cons m rest ih =>
    obtain ⟨h1, h2⟩ := h m (by simp)
    obtain ⟨i, hi⟩ := Option.isSome_iff_exists.mp h1
    obtain ⟨nm, hnm⟩ := Option.isSome_iff_exists.mp h2
    rw [List.mapM_cons, ih (fun x hx => h x (by simp [hx]))]
    simp only [pyStrGet, hi, hnm, List.map_cons, Option.getD_some]
    rfl

/-- Building the payload's expression list succeeds, copying the `'id'` and
`'expr'` fields verbatim from the caller's dicts, whenever every expression
dict has both keys. -/
theorem mapM_exprOut (es : List (List (String × String)))
    (h : ∀ e ∈ es, (e.lookup "id").isSome ∧ (e.lookup "expr").isSome) :
    es.mapM (fun x => do
        let i ← pyStrGet x "id"
        let ex ← pyStrGet x "expr"
        pure (⟨i, ex⟩ : ExprOut)) =
      .ok (es.map fun e =>
        (⟨(e.lookup "id").getD "", (e.lookup "expr").getD ""⟩ : ExprOut)) := by
  induction es with
  | nil => rfl
  | cons e rest ih =>
    obtain ⟨h1, h2⟩ := h e (by simp)
    obtain ⟨i, hi⟩ := Option.isSome_iff_exists.mp h1
    obtain ⟨ex, hex⟩ := Option.isSome_iff_exists.mp h2
    rw [List.mapM_cons, ih (fun x hx => h x (by simp [hx]))]
    simp only [pyStrGet, hi, hex, List.map_cons, Option.getD_some]
    rfl

/-- C4 counterexample: `query_expressions` puts the *caller-supplied* ids
(`'custom'`, `'myexp'`) into the payload — not generator-minted ones — and
leaves the metric and expression counters at 0; only the filter id is drawn
from the generator. -/
theorem claim_c4_counterexample :
    query_expressions ["sum"] "sum" "1d-ago" none 0 true
        [[("id", "custom"), ("name", "sys.cpu.user")]] ["host"]
        [[("id", "myexp"), ("expr", "a + b")]] idsInit =
      (.ok ⟨⟨"1d-ago", "sum", none⟩,
            [⟨"custom", "sys.cpu.user", "f1", "nan"⟩],
            ⟨"f1", [⟨"wildcard", "host", "*", false⟩]⟩,
            [⟨"myexp", "a + b"⟩],
            outputsConst⟩,
        [("filter", 1), ("metric", 0), ("expression", 0)]) ∧
    "custom" ≠ "m1" ∧ "myexp" ≠ "e1" :=
  ⟨rfl, by decide, by decide⟩

/-- C4 amended: for every valid call, `query_expressions` draws exactly one
fresh id from the connection's generator — the filter id `"f" ++ (a + 1)` —
while every metric and expression id in the composed payload is copied from
the caller's input objects' `'id'` fields, and the metric and expression
counters are left unchanged. -/
theorem claim_c4_amended (aggrs : List String) (aggr start : String)
    (endv : Option String) (vpol : Int) (sj : Bool)
    (metrics : List (List (String × String))) (tags : List String)
    (expr : List (List (String × String))) (a b c : Nat)
    (hm : metrics ≠ []) (ht : tags ≠ []) (ha : aggr ∈ aggrs) (he : expr ≠ [])
    (hmk : ∀ m ∈ metrics, (m.lookup "id").isSome ∧ (m.lookup "name").isSome)
    (hek : ∀ e ∈ expr, (e.lookup "id").isSome ∧ (e.lookup "expr").isSome) :
    query_expressions aggrs aggr start endv vpol sj metrics tags expr
        [("filter", a), ("metric", b), ("expression", c)] =
      (.ok ⟨⟨start, aggr, endv⟩,
            metrics.map (fun m =>
              ⟨(m.lookup "id").getD "", (m.lookup "name").getD "",
                "f" ++ toString (a + 1), "nan"⟩),
            ⟨"f" ++ toString (a + 1),
              tags.map (fun t => ⟨"wildcard", t, "*", false⟩)⟩,
            expr.map (fun e =>
              ⟨(e.lookup "id").getD "", (e.lookup "expr").getD ""⟩),
            outputsConst⟩,
        [("filter", a + 1), ("metric", b), ("expression", c)]) := by
  have c1 : ¬ metrics.length < 1 := by
    have := List.length_pos.mpr hm
    omega
  have c2 : metrics.all metricAssertCond = true :=
    List.all_eq_true.mpr (fun m _ => metricAssertCond_eq_true m)
  have c3 : tags.length > 0 := List.length_pos.mpr ht
  have c5 : ¬ expr.length = 0 := by
    have := List.length_pos.mpr he
    omega
  have c6 : expr.all exprAssertCond = true :=
    List.all_eq_true.mpr (fun e _ => exprAssertCond_eq_true e)
  have hgf : generate_filter tags false [("filter", a), ("metric", b), ("expression", c)] =
      (.ok ⟨"f" ++ toString (a + 1), tags.map (fun t => ⟨"wildcard", t, "*", false⟩)⟩,
        [("filter", a + 1), ("metric", b), ("expression", c)]) := by
    rw [generate_filter, if_pos c3,
      show generate_id "filter" [("filter", a), ("metric", b), ("expression", c)] =
        (.ok ("f" ++ toString (a + 1)),
          [("filter", a + 1), ("metric", b), ("expression", c)]) from rfl]
  simp only [query_expressions, c1, c2, c3, c5, c6, ha, hgf, if_false, if_true,
    Bool.not_true, not_true_eq_false, not_false_eq_true]
  rw [mapM_metricOut ("f" ++ toString (a + 1)) metrics hmk, mapM_exprOut expr hek]
  simp

/-- Witness for C4 (amended): two metrics and one expression with
caller-chosen ids `x9`, `y7`, `z5` pass through unchanged; the filter id is
`"f3"` on a connection whose filter counter is 2, and the metric and
expression counters stay at 4 and 7. -/
theorem claim_c4_witness :
    query_expressions ["avg"] "avg" "2d-ago" (some "1d-ago") 0 false
        [[("id", "x9"), ("name", "sys.mem")], [("id", "y7"), ("name", "sys.cpu")]]
        ["host", "dc"] [[("id", "z5"), ("expr", "x9 + y7")]]
        [("filter", 2), ("metric", 4), ("expression", 7)] =
      (.ok ⟨⟨"2d-ago", "avg", some "1d-ago"⟩,
            [⟨"x9", "sys.mem", "f3", "nan"⟩, ⟨"y7", "sys.cpu", "f3", "nan"⟩],
            ⟨"f3", [⟨"wildcard", "host", "*", false⟩, ⟨"wildcard", "dc", "*", false⟩]⟩,
            [⟨"z5", "x9 + y7"⟩],
            outputsConst⟩,
        [("filter", 3), ("metric", 4), ("expression", 7)]) := by
  have h := claim_c4_amended ["avg"] "avg" "2d-ago" (some "1d-ago") 0 false
    [[("id", "x9"), ("name", "sys.mem")], [("id", "y7"), ("name", "sys.cpu")]]
    ["host", "dc"] [[("id", "z5"), ("expr", "x9 + y7")]] 2 4 7
    (by decide) (by decide) (by decide) (by decide)
    (by intro m hm; fin_cases hm <;> exact ⟨rfl, rfl⟩)
    (by intro e he; fin_cases he <;> exact ⟨rfl, rfl⟩)
  simpa using h
